import Mathlib

/-!
Verification of the triangle rasterization core of `taichi-play`
(`src/taichi_play/examples/qt_triangle.py` and
`src/taichi_play/examples/triangle.py`), shallowly embedded over `ℚ`.

Machine floating point (`ti.f32`) is modelled by exact rationals; `ℚ`
division follows Lean's `x / 0 = 0` convention in the main development.
For the degenerate-triangle behavior, where the source performs an
unguarded division whose denominator is zero, a separate NaN-aware model
(`F`, `baryIEEE`, `renderPixelIEEE`) embeds the same kernel with IEEE
non-finite values made explicit: `0/0` is NaN, `x/0` a signed infinity,
NaN propagates through arithmetic, and an ordered comparison against NaN
is false.
-/

namespace TaichiPlay

/-- A 2D point/vector with rational components, modelling a Taichi
2-component `f32` vector (vertex positions, pixel positions). -/
structure Vec2 where
  x : ℚ
  y : ℚ
  deriving DecidableEq, Repr

/-- An RGB color (or a triple of barycentric weights) with rational
components, modelling a Taichi 3-component `f32` vector. -/
structure Vec3 where
  x : ℚ
  y : ℚ
  z : ℚ
  deriving DecidableEq, Repr

/-- Componentwise difference of two 2D vectors (`v1 - v0` in the kernel). -/
def Vec2.sub (a b : Vec2) : Vec2 := ⟨a.x - b.x, a.y - b.y⟩

/-- Dot product of two 2D vectors (`e0.dot(e1)` in the kernel). -/
def Vec2.dot (a b : Vec2) : ℚ := a.x * b.x + a.y * b.y

/-- Componentwise sum of two colors. -/
def Vec3.add (a b : Vec3) : Vec3 := ⟨a.x + b.x, a.y + b.y, a.z + b.z⟩

instance : Add Vec3 := ⟨Vec3.add⟩

/-- Scaling of a color by a scalar (`bary[0] * self.colors[0]` etc.). -/
def Vec3.smul (r : ℚ) (a : Vec3) : Vec3 := ⟨r * a.x, r * a.y, r * a.z⟩

instance : SMul ℚ Vec3 := ⟨Vec3.smul⟩

@[simp] theorem Vec3.add_def (a b : Vec3) :
    a + b = ⟨a.x + b.x, a.y + b.y, a.z + b.z⟩ := rfl

@[simp] theorem Vec3.smul_def (r : ℚ) (a : Vec3) :
    r • a = ⟨r * a.x, r * a.y, r * a.z⟩ := rfl

/-- The barycentric-coordinate computation of
`TriangleRenderer.barycentric` (qt_triangle.py, lines 43-69), translated
literally: edge vectors, the five dot products, the 2x2-system denominator
`d00*d11 - d01*d01`, and weights `v`, `w` obtained by division, with
`u = 1 - v - w`.  Over `ℚ` a division by a zero denominator returns `0`
(Lean's convention); `baryIEEE` is the same computation with the IEEE
non-finite outcomes of that unguarded division made explicit. -/
def barycentric (p v0 v1 v2 : Vec2) : Vec3 :=
  let e0 := Vec2.sub v1 v0
  let e1 := Vec2.sub v2 v0
  let e2 := Vec2.sub p v0
  let d00 := Vec2.dot e0 e0
  let d01 := Vec2.dot e0 e1
  let d11 := Vec2.dot e1 e1
  let d20 := Vec2.dot e2 e0
  let d21 := Vec2.dot e2 e1
  let denom := d00 * d11 - d01 * d01
  let v := (d11 * d20 - d01 * d21) / denom
  let w := (d00 * d21 - d01 * d20) / denom
  let u := 1 - v - w
  ⟨u, v, w⟩

/-- The denominator `d00*d11 - d01*d01` computed by
`TriangleRenderer.barycentric` (qt_triangle.py, line 64); it depends only
on the three vertices, not on the queried point. -/
def baryDenom (v0 v1 v2 : Vec2) : ℚ :=
  let e0 := Vec2.sub v1 v0
  let e1 := Vec2.sub v2 v0
  let d00 := Vec2.dot e0 e0
  let d01 := Vec2.dot e0 e1
  let d11 := Vec2.dot e1 e1
  d00 * d11 - d01 * d01

/-- An IEEE-style `f32` value for the NaN-aware model: a finite value
(held exactly as a rational), a signed infinity, or NaN.  Taichi `f32`
arithmetic does not trap: a division by zero produces an infinity or NaN
and execution continues. -/
inductive F where
  | fin (q : ℚ)
  | pinf
  | ninf
  | nan
  deriving DecidableEq, Repr

/-- IEEE division of two finite values: a zero denominator yields NaN
for a zero numerator and a signed infinity otherwise (`ℚ` has no signed
zero, so the sign comes from the numerator alone). -/
def fdiv (x y : ℚ) : F :=
  if y = 0 then
    if x = 0 then F.nan else if 0 < x then F.pinf else F.ninf
  else F.fin (x / y)

/-- IEEE subtraction on possibly non-finite values: NaN propagates, and
infinity minus infinity of the same sign is NaN. -/
def fsub : F → F → F
  | F.nan, _ => F.nan
  | _, F.nan => F.nan
  | F.fin a, F.fin b => F.fin (a - b)
  | F.fin _, F.pinf => F.ninf
  | F.fin _, F.ninf => F.pinf
  | F.pinf, F.fin _ => F.pinf
  | F.pinf, F.pinf => F.nan
  | F.pinf, F.ninf => F.pinf
  | F.ninf, F.fin _ => F.ninf
  | F.ninf, F.pinf => F.ninf
  | F.ninf, F.ninf => F.nan

/-- IEEE addition on possibly non-finite values: NaN propagates, and
infinities of opposite sign sum to NaN. -/
def fadd : F → F → F
  | F.nan, _ => F.nan
  | _, F.nan => F.nan
  | F.fin a, F.fin b => F.fin (a + b)
  | F.fin _, F.pinf => F.pinf
  | F.fin _, F.ninf => F.ninf
  | F.pinf, F.fin _ => F.pinf
  | F.ninf, F.fin _ => F.ninf
  | F.pinf, F.pinf => F.pinf
  | F.pinf, F.ninf => F.nan
  | F.ninf, F.pinf => F.nan
  | F.ninf, F.ninf => F.ninf

/-- IEEE multiplication on possibly non-finite values: NaN propagates,
and zero times infinity is NaN. -/
def fmul : F → F → F
  | F.nan, _ => F.nan
  | _, F.nan => F.nan
  | F.fin a, F.fin b => F.fin (a * b)
  | F.fin a, F.pinf => if a = 0 then F.nan else if 0 < a then F.pinf else F.ninf
  | F.fin a, F.ninf => if a = 0 then F.nan else if 0 < a then F.ninf else F.pinf
  | F.pinf, F.fin b => if b = 0 then F.nan else if 0 < b then F.pinf else F.ninf
  | F.ninf, F.fin b => if b = 0 then F.nan else if 0 < b then F.ninf else F.pinf
  | F.pinf, F.pinf => F.pinf
  | F.pinf, F.ninf => F.ninf
  | F.ninf, F.pinf => F.ninf
  | F.ninf, F.ninf => F.pinf

/-- Division on possibly non-finite values (finite operands delegate to
`fdiv`; infinity over infinity is NaN; a finite value over infinity is
zero; without signed zeros the sign of an infinite quotient over zero
uses `0 ≤ b`). -/
def fdivF : F → F → F
  | F.nan, _ => F.nan
  | _, F.nan => F.nan
  | F.fin a, F.fin b => fdiv a b
  | F.fin _, F.pinf => F.fin 0
  | F.fin _, F.ninf => F.fin 0
  | F.pinf, F.fin b => if 0 ≤ b then F.pinf else F.ninf
  | F.ninf, F.fin b => if 0 ≤ b then F.ninf else F.pinf
  | F.pinf, F.pinf => F.nan
  | F.pinf, F.ninf => F.nan
  | F.ninf, F.pinf => F.nan
  | F.ninf, F.ninf => F.nan

/-- `ti.min` on possibly non-finite values, following the GPU `fminf`
semantics (the kernel runs with `arch=ti.gpu`): when exactly one operand
is NaN the other is returned; NaN results only from two NaN operands. -/
def fmin : F → F → F
  | F.nan, b => b
  | a, F.nan => a
  | F.ninf, _ => F.ninf
  | _, F.ninf => F.ninf
  | F.pinf, b => b
  | a, F.pinf => a
  | F.fin a, F.fin b => F.fin (min a b)

/-- `ti.max` on possibly non-finite values, following the GPU `fmaxf`
semantics: when exactly one operand is NaN the other is returned. -/
def fmax : F → F → F
  | F.nan, b => b
  | a, F.nan => a
  | F.pinf, _ => F.pinf
  | _, F.pinf => F.pinf
  | F.ninf, b => b
  | a, F.ninf => a
  | F.fin a, F.fin b => F.fin (max a b)

/-- The IEEE ordered comparison `a <= b`: false whenever either operand
is NaN. -/
def fle : F → F → Bool
  | F.nan, _ => false
  | _, F.nan => false
  | F.ninf, _ => true
  | _, F.ninf => false
  | _, F.pinf => true
  | F.pinf, _ => false
  | F.fin a, F.fin b => decide (a ≤ b)

/-- `ti.math.clamp` on a possibly non-finite value with finite bounds. -/
def fclamp (x : F) (lo hi : ℚ) : F := fmin (fmax x (F.fin lo)) (F.fin hi)

/-- `ti.math.smoothstep` on a possibly non-finite argument with finite
edges, with the same structure as `smoothstep`. -/
def smoothstepF (edge0 edge1 : ℚ) (x : F) : F :=
  let t := fclamp (fdivF (fsub x (F.fin edge0)) (F.fin (edge1 - edge0))) 0 1
  fmul (fmul t t) (fsub (F.fin 3) (fmul (F.fin 2) t))

/-- A 3-component vector of possibly non-finite values (a pixel or a
weight triple in the NaN-aware model). -/
structure Vec3F where
  x : F
  y : F
  z : F
  deriving DecidableEq, Repr

/-- Scaling of a finite color by a possibly non-finite scalar. -/
def fsmulV (r : F) (c : Vec3) : Vec3F :=
  ⟨fmul r (F.fin c.x), fmul r (F.fin c.y), fmul r (F.fin c.z)⟩

/-- Componentwise sum in the NaN-aware model. -/
def faddV (a b : Vec3F) : Vec3F := ⟨fadd a.x b.x, fadd a.y b.y, fadd a.z b.z⟩

/-- Scaling of a possibly non-finite color by a possibly non-finite
scalar. -/
def fscaleV (r : F) (c : Vec3F) : Vec3F := ⟨fmul r c.x, fmul r c.y, fmul r c.z⟩

/-- `TriangleRenderer.barycentric` (qt_triangle.py, lines 43-69) in the
NaN-aware model: the same edge vectors, dot products and denominator as
`barycentric` (exact, since these are sums and products), but with the
two unguarded divisions performed by `fdiv`, so that a zero denominator
produces the IEEE non-finite weights the `f32` kernel computes, and
`u = 1.0 - v - w` computed by IEEE subtraction. -/
def baryIEEE (p v0 v1 v2 : Vec2) : Vec3F :=
  let e0 := Vec2.sub v1 v0
  let e1 := Vec2.sub v2 v0
  let e2 := Vec2.sub p v0
  let d00 := Vec2.dot e0 e0
  let d01 := Vec2.dot e0 e1
  let d11 := Vec2.dot e1 e1
  let d20 := Vec2.dot e2 e0
  let d21 := Vec2.dot e2 e1
  let denom := d00 * d11 - d01 * d01
  let v := fdiv (d11 * d20 - d01 * d21) denom
  let w := fdiv (d00 * d21 - d01 * d20) denom
  let u := fsub (fsub (F.fin 1) v) w
  ⟨u, v, w⟩

/-- The 2D cross product of two edge vectors; it is zero exactly when
the spanned triangle is degenerate (three collinear vertices). -/
def cross2 (a b : Vec2) : ℚ := a.x * b.y - a.y * b.x

/-- `ti.math.clamp(x, lo, hi)`: clamp `x` into the interval `[lo, hi]`. -/
def clamp (x lo hi : ℚ) : ℚ := min (max x lo) hi

/-- `ti.math.smoothstep(edge0, edge1, x)`: the cubic Hermite ease curve,
`t = clamp((x - edge0)/(edge1 - edge0), 0, 1)` then `t*t*(3 - 2*t)`. -/
def smoothstep (edge0 edge1 x : ℚ) : ℚ :=
  let t := clamp ((x - edge0) / (edge1 - edge0)) 0 1
  t * t * (3 - 2 * t)

/-- The three vertex colors of the renderer (`self.colors`, indices 0-2). -/
structure Colors where
  c0 : Vec3
  c1 : Vec3
  c2 : Vec3
  deriving DecidableEq, Repr

/-- The triangle model: the three vertex positions (`self.vertices`) and
the three vertex colors (`self.colors`). -/
structure Model where
  v0 : Vec2
  v1 : Vec2
  v2 : Vec2
  cols : Colors
  deriving DecidableEq, Repr

/-- The background color written by `render` (qt_triangle.py, line 104). -/
def bgColor : Vec3 := ⟨1, 1, 1⟩

/-- The body of the `render` kernel (qt_triangle.py, lines 107-138) for
one pixel at row `i`, column `j`: map to normalized device coordinates
with the vertical flip, compute the barycentric weights and their
minimum, and either blend the interpolated color with the background
using the smoothstep anti-aliasing factor (when `min_bary >= -0.02`,
written here as `-(1/50)`) or write the background color. -/
def renderPixel (m : Model) (w h : ℚ) (i j : ℕ) : Vec3 :=
  let x := ((j : ℚ) / w) * 2 - 1
  let y := 1 - ((i : ℚ) / h) * 2
  let bary := barycentric ⟨x, y⟩ m.v0 m.v1 m.v2
  let minBary := min (min bary.x bary.y) bary.z
  if -(1/50) ≤ minBary then
    let color := bary.x • m.cols.c0 + bary.y • m.cols.c1 + bary.z • m.cols.c2
    let aaScale := max w h * (1/2)
    let alpha := smoothstep 0 (1 / aaScale) minBary
    alpha • color + (1 - alpha) • bgColor
  else
    bgColor

/-- The minimum barycentric weight seen by the `render` kernel at pixel
(row `i`, column `j`), i.e. `min_bary` of qt_triangle.py line 118. -/
def minBaryAt (m : Model) (w h : ℚ) (i j : ℕ) : ℚ :=
  let x := ((j : ℚ) / w) * 2 - 1
  let y := 1 - ((i : ℚ) / h) * 2
  let bary := barycentric ⟨x, y⟩ m.v0 m.v1 m.v2
  min (min bary.x bary.y) bary.z

/-- The body of the `render` kernel (qt_triangle.py, lines 107-138) in
the NaN-aware model, structured exactly as `renderPixel`: normalized
device coordinates (exact, the grid dimensions being positive),
barycentric weights via `baryIEEE`, their minimum via `ti.min`
(`fmin`), the IEEE ordered test `min_bary >= -0.02` (false on NaN), and
either the smoothstep blend or the background color.  The function is
total: every pixel receives a value and nothing raises, mirroring
non-trapping `f32` execution. -/
def renderPixelIEEE (m : Model) (w h : ℚ) (i j : ℕ) : Vec3F :=
  let x := ((j : ℚ) / w) * 2 - 1
  let y := 1 - ((i : ℚ) / h) * 2
  let bary := baryIEEE ⟨x, y⟩ m.v0 m.v1 m.v2
  let minBary := fmin (fmin bary.x bary.y) bary.z
  if fle (F.fin (-(1/50))) minBary then
    let color := faddV (faddV (fsmulV bary.x m.cols.c0) (fsmulV bary.y m.cols.c1))
      (fsmulV bary.z m.cols.c2)
    let aaScale := max w h * (1/2)
    let alpha := smoothstepF 0 (1 / aaScale) minBary
    faddV (fscaleV alpha color) (fsmulV (fsub (F.fin 1) alpha) bgColor)
  else
    ⟨F.fin bgColor.x, F.fin bgColor.y, F.fin bgColor.z⟩

/-- Second definition for the refinement claim C9, following the spec's
words: the blend formula applied unconditionally at every pixel —
`interpolatedColor * alpha + backgroundColor * (1 - alpha)` with
`alpha = smoothstep(0, 1/(max(width, height)*0.5), minBary)` — with no
outside short-circuit. -/
def renderPixelBlendAlways (m : Model) (w h : ℚ) (i j : ℕ) : Vec3 :=
  let x := ((j : ℚ) / w) * 2 - 1
  let y := 1 - ((i : ℚ) / h) * 2
  let bary := barycentric ⟨x, y⟩ m.v0 m.v1 m.v2
  let minBary := min (min bary.x bary.y) bary.z
  let color := bary.x • m.cols.c0 + bary.y • m.cols.c1 + bary.z • m.cols.c2
  let alpha := smoothstep 0 (1 / (max w h * (1/2))) minBary
  alpha • color + (1 - alpha) • bgColor

/-- The renderer state: grid dimensions, the triangle model, and the
pixel field (`self.pixels`, indexed as `pixels[row, col]`). -/
structure RState where
  width : Int
  height : Int
  model : Model
  pixels : ℕ → ℕ → Vec3

/-- The reference triangle model set up by `TriangleRenderer.__init__`
(qt_triangle.py, lines 32-41): vertices `(0, 0.6)`, `(-0.5, -0.3)`,
`(0.5, -0.3)` and colors red, green, blue. -/
def refModel : Model :=
  { v0 := ⟨0, 3/5⟩
    v1 := ⟨-1/2, -3/10⟩
    v2 := ⟨1/2, -3/10⟩
    cols := ⟨⟨1, 0, 0⟩, ⟨0, 1, 0⟩, ⟨0, 0, 1⟩⟩ }

/-- The state of a renderer whose construction aborted in the pixel
field allocation: `self.width` and `self.height` (qt_triangle.py, lines
24-25) are assigned before `self.pixels = ti.Vector.field(...)` runs
(line 29), and the vertices and colors (lines 32-41) are only installed
afterwards, so at the failure point only the two dimensions are set. -/
structure AbortedInit where
  width : Int
  height : Int
  deriving DecidableEq, Repr

/-- `TriangleRenderer.__init__` (qt_triangle.py, lines 15-41): the source
performs no dimension validation of its own and defines no
InvalidDimensions error.  It assigns `self.width` and `self.height`,
then allocates the pixel field with
`ti.Vector.field(3, dtype=ti.f32, shape=(height, width))`, then installs
the reference vertices and colors.  The taichi field allocation is
external library code, modelled as rejecting a non-positive shape; when
it fails, construction aborts with only `width` and `height` assigned
(the partially initialized `AbortedInit`), and for positive dimensions
construction completes with the zero-initialized field and the reference
model. -/
def TriangleRenderer.init (width height : Int) : Except AbortedInit RState :=
  if 0 < width ∧ 0 < height then
    Except.ok
      { width := width
        height := height
        model := refModel
        pixels := fun _ _ => ⟨0, 0, 0⟩ }
  else
    Except.error { width := width, height := height }

/-- The `render` kernel as a state transformer: overwrites every pixel of
the field with `renderPixel` of the current model and dimensions. -/
def renderS (s : RState) : RState :=
  { s with pixels := fun i j => renderPixel s.model (s.width : ℚ) (s.height : ℚ) i j }

/-- `TriangleRenderer.rotate_colors` (qt_triangle.py, lines 140-152): the
net effect of copying the colors to a temporary array and reassigning
`colors[0] <- temp[2]`, `colors[1] <- temp[0]`, `colors[2] <- temp[1]`. -/
def rotate_colors (c : Colors) : Colors := ⟨c.c2, c.c0, c.c1⟩

/-- `swap_colors` from triangle.py (lines 57-63): `temp = colors[0]`,
`colors[0] <- colors[1]`, `colors[1] <- colors[2]`, `colors[2] <- temp`. -/
def swap_colors (c : Colors) : Colors := ⟨c.c1, c.c2, c.c0⟩

/-- Truncation toward zero of a rational, modelling the C-style cast that
`numpy.ndarray.astype` performs on each float. -/
def truncTowardZero (x : ℚ) : Int := if 0 ≤ x then ⌊x⌋ else ⌈x⌉

/-- One channel of `TriangleRenderer.get_frame` (qt_triangle.py, line
164): `(img * 255).astype(np.uint8)`, i.e. scale by 255, truncate toward
zero and reduce modulo 256 (the two's-complement wrap the platform cast
performs for out-of-range values); there is no clamping in the source. -/
def toByte (v : ℚ) : Int := truncTowardZero (v * 255) % 256

/-- `TriangleRenderer.get_frame` (qt_triangle.py, lines 154-166) as a
function of the state: the per-channel byte conversion of the pixel
field. -/
def getFrame (s : RState) : ℕ → ℕ → Int × Int × Int :=
  fun i j =>
    (toByte (s.pixels i j).x, toByte (s.pixels i j).y, toByte (s.pixels i j).z)

/-- Helper: for three collinear vertices, both division numerators of the
barycentric computation are exactly zero along with the denominator (the
numerators factor as the cross product times another cross product), so
the two unguarded divisions are `0/0` and all three weights come out
NaN. -/
theorem baryIEEE_collinear (p v0 v1 v2 : Vec2)
    (h : cross2 (Vec2.sub v1 v0) (Vec2.sub v2 v0) = 0) :
    baryIEEE p v0 v1 v2 = ⟨F.nan, F.nan, F.nan⟩ := by
  have hc : (v1.x - v0.x) * (v2.y - v0.y) - (v1.y - v0.y) * (v2.x - v0.x) = 0 := by
    simpa [cross2, Vec2.sub] using h
  have hden : Vec2.dot (Vec2.sub v1 v0) (Vec2.sub v1 v0) *
        Vec2.dot (Vec2.sub v2 v0) (Vec2.sub v2 v0) -
      Vec2.dot (Vec2.sub v1 v0) (Vec2.sub v2 v0) *
        Vec2.dot (Vec2.sub v1 v0) (Vec2.sub v2 v0) = 0 := by
    simp only [Vec2.dot, Vec2.sub]
    linear_combination
      ((v1.x - v0.x) * (v2.y - v0.y) - (v1.y - v0.y) * (v2.x - v0.x)) * hc
  have hnv : Vec2.dot (Vec2.sub v2 v0) (Vec2.sub v2 v0) *
        Vec2.dot (Vec2.sub p v0) (Vec2.sub v1 v0) -
      Vec2.dot (Vec2.sub v1 v0) (Vec2.sub v2 v0) *
        Vec2.dot (Vec2.sub p v0) (Vec2.sub v2 v0) = 0 := by
    simp only [Vec2.dot, Vec2.sub]
    linear_combination
      ((p.x - v0.x) * (v2.y - v0.y) - (p.y - v0.y) * (v2.x - v0.x)) * hc
  have hnw : Vec2.dot (Vec2.sub v1 v0) (Vec2.sub v1 v0) *
        Vec2.dot (Vec2.sub p v0) (Vec2.sub v2 v0) -
      Vec2.dot (Vec2.sub v1 v0) (Vec2.sub v2 v0) *
        Vec2.dot (Vec2.sub p v0) (Vec2.sub v1 v0) = 0 := by
    simp only [Vec2.dot, Vec2.sub]
    linear_combination
      ((v1.x - v0.x) * (p.y - v0.y) - (v1.y - v0.y) * (p.x - v0.x)) * hc
  simp only [baryIEEE, hden, hnv, hnw]
  simp [fdiv, fsub]

/-- C1: for every positive grid and every triangle model with three
collinear vertices (zero barycentric denominator), rendering terminates
normally (the embedded kernel is total, since `f32` division does not
trap), and every pixel of the field is set exactly to the background
color `(1,1,1)` with finite channels — no NaN or Inf reaches any pixel:
both barycentric numerators vanish identically for a collinear triangle,
so the unguarded divisions give `0/0 = NaN` weights, the ordered test
`min_bary >= -0.02` is false on NaN, and the kernel takes the background
branch at every pixel. -/
theorem collinear_renders_background (m : Model) (w h : ℚ) (i j : ℕ)
    (hw : 0 < w) (hh : 0 < h)
    (hcol : cross2 (Vec2.sub m.v1 m.v0) (Vec2.sub m.v2 m.v0) = 0) :
    renderPixelIEEE m w h i j = ⟨F.fin bgColor.x, F.fin bgColor.y, F.fin bgColor.z⟩ := by
  have hb : baryIEEE ⟨((j : ℚ) / w) * 2 - 1, 1 - ((i : ℚ) / h) * 2⟩ m.v0 m.v1 m.v2 =
      ⟨F.nan, F.nan, F.nan⟩ :=
    baryIEEE_collinear _ _ _ _ hcol
  simp only [renderPixelIEEE, hb]
  simp [fmin, fle]

/-- Witness for C1: the collinear triangle `(0,0)`, `(1,1)`, `(2,2)`
with the reference colors on a 2x2 grid renders pixel (0,0) to the exact
finite background color. -/
theorem collinear_renders_background_witness :
    renderPixelIEEE
        { v0 := ⟨0, 0⟩, v1 := ⟨1, 1⟩, v2 := ⟨2, 2⟩,
          cols := ⟨⟨1, 0, 0⟩, ⟨0, 1, 0⟩, ⟨0, 0, 1⟩⟩ } 2 2 0 0 =
      ⟨F.fin bgColor.x, F.fin bgColor.y, F.fin bgColor.z⟩ :=
  collinear_renders_background _ 2 2 0 0 (by norm_num) (by norm_num)
    (by norm_num [cross2, Vec2.sub])

/-- C2: the frame export scales by 255 and casts with `astype(np.uint8)`,
which truncates and wraps modulo 256 instead of clamping: the channel
value `2.0` becomes byte `254` (not the clamped `255`), and the channel
value `-0.1` becomes byte `231` (not the clamped `0`). -/
theorem toByte_wraps :
    toByte 2 = 254 ∧ (254 : Int) ≠ 255 ∧ toByte (-(1/10)) = 231 := by
  refine ⟨?_, by decide, ?_⟩
  · show truncTowardZero (2 * 255) % 256 = 254
    have h : truncTowardZero (2 * 255 : ℚ) = 510 := by
      rw [show truncTowardZero (2 * 255 : ℚ) = ⌊(2 * 255 : ℚ)⌋ from if_pos (by norm_num)]
      norm_num
    rw [h]
    decide
  · show truncTowardZero (-(1/10) * 255) % 256 = 231
    have h : truncTowardZero (-(1/10) * 255 : ℚ) = -25 := by
      rw [show truncTowardZero (-(1/10) * 255 : ℚ) = ⌈(-(1/10) * 255 : ℚ)⌉ from
        if_neg (by norm_num)]
      rw [Int.ceil_eq_iff]
      norm_num
    rw [h]
    decide

/-- C3 counterexample: constructing at width 0, height -5 does not fail
with the repository's own InvalidDimensions error and does not avoid
partial initialization — the (modelled external) taichi field allocation
rejects the non-positive shape only after `self.width` and `self.height`
have been assigned, so construction aborts partially initialized, with
the two dimensions already stored. -/
theorem init_nonpositive_partial :
    TriangleRenderer.init 0 (-5) = Except.error ⟨0, -5⟩ := by
  unfold TriangleRenderer.init
  rw [if_neg (by decide)]

/-- C3 amended: construction performs no dimension validation of its own
and raises no InvalidDimensions error; for positive width and height it
completes and fully initializes the state (dimensions stored as given,
reference model installed, zero-initialized field), while for width <= 0
or height <= 0 it fails only in the external field allocation, after the
two dimensions have been assigned (partial initialization); and for every
positive dimensions and every triangle/color input the render pass is
total, writing a value to every pixel. -/
theorem init_validation_behavior (w h : Int) :
    ((0 < w ∧ 0 < h) →
      TriangleRenderer.init w h =
        Except.ok
          { width := w, height := h, model := refModel,
            pixels := fun _ _ => ⟨0, 0, 0⟩ }) ∧
    (¬(0 < w ∧ 0 < h) →
      TriangleRenderer.init w h = Except.error { width := w, height := h }) ∧
    (∀ (m : Model) (p : ℕ → ℕ → Vec3) (i j : ℕ),
      (renderS ⟨w, h, m, p⟩).pixels i j = renderPixel m (w : ℚ) (h : ℚ) i j) := by
  refine ⟨fun hpos => ?_, fun hneg => ?_, fun m p i j => rfl⟩
  · unfold TriangleRenderer.init
    rw [if_pos hpos]
  · unfold TriangleRenderer.init
    rw [if_neg hneg]

/-- Witness for C3 at the reference dimensions 800x600 (construction
succeeds, fully initialized) and at the non-positive dimensions
(0, -5) (construction aborts after the dimensions are assigned). -/
theorem init_validation_behavior_witness :
    TriangleRenderer.init 800 600 =
      Except.ok
        { width := 800, height := 600, model := refModel,
          pixels := fun _ _ => ⟨0, 0, 0⟩ } ∧
    TriangleRenderer.init 0 (-5) = Except.error { width := 0, height := -5 } :=
  ⟨(init_validation_behavior 800 600).1 (by decide),
   (init_validation_behavior 0 (-5)).2.1 (by decide)⟩

/-- C5: one invocation of `rotate_colors` maps the stored triple
`(c0, c1, c2)` to exactly `(c2, c0, c1)`: index 0 receives old index 2,
index 1 receives old index 0, index 2 receives old index 1, and no color
value is altered. -/
theorem rotate_colors_spec (c : Colors) :
    rotate_colors c = ⟨c.c2, c.c0, c.c1⟩ ∧
    (rotate_colors c).c0 = c.c2 ∧
    (rotate_colors c).c1 = c.c0 ∧
    (rotate_colors c).c2 = c.c1 :=
  ⟨rfl, rfl, rfl, rfl⟩

/-- C6: the multiset of the three stored colors is invariant under one
application of `rotate_colors`, and three successive applications restore
the original per-index assignment. -/
theorem rotate_colors_multiset_and_cube (c : Colors) :
    ({(rotate_colors c).c0, (rotate_colors c).c1, (rotate_colors c).c2} :
        Multiset Vec3) = {c.c0, c.c1, c.c2} ∧
    rotate_colors (rotate_colors (rotate_colors c)) = c := by
  refine ⟨?_, rfl⟩
  show c.c2 ::ₘ c.c0 ::ₘ {c.c1} = c.c0 ::ₘ c.c1 ::ₘ {c.c2}
  rw [Multiset.cons_swap]
  congr 1
  show c.c2 ::ₘ c.c1 ::ₘ (0 : Multiset Vec3) = c.c1 ::ₘ c.c2 ::ₘ 0
  rw [Multiset.cons_swap]

/-- C7: render is deterministic — its output pixel field depends only on
the model and the dimensions, not on the previous contents of the pixel
field, so two renders with no rotation in between produce identical
fields and byte-identical exported frames; moreover rendering twice in a
row leaves the state exactly as after one render. -/
theorem render_deterministic (w h : Int) (m : Model) (p q : ℕ → ℕ → Vec3) :
    (renderS ⟨w, h, m, p⟩).pixels = (renderS ⟨w, h, m, q⟩).pixels ∧
    getFrame (renderS ⟨w, h, m, p⟩) = getFrame (renderS ⟨w, h, m, q⟩) ∧
    renderS (renderS ⟨w, h, m, p⟩) = renderS ⟨w, h, m, p⟩ :=
  ⟨rfl, rfl, rfl⟩

/-- Helper: `renderPixel` is the outside short-circuit applied on top of
the unconditional blend, with the threshold from qt_triangle.py line 121. -/
theorem renderPixel_eq_ite (m : Model) (w h : ℚ) (i j : ℕ) :
    renderPixel m w h i j =
      if -(1/50) ≤ minBaryAt m w h i j then renderPixelBlendAlways m w h i j
      else bgColor := rfl

/-- Helper: the cubic Hermite smoothstep with a positive upper edge
evaluates to 0 at every non-positive argument. -/
theorem smoothstep_eq_zero_of_nonpos (e1 x : ℚ) (he : 0 < e1) (hx : x ≤ 0) :
    smoothstep 0 e1 x = 0 := by
  have hq : (x - 0) / (e1 - 0) ≤ 0 := by
    apply div_nonpos_of_nonpos_of_nonneg <;> linarith
  have ht : clamp ((x - 0) / (e1 - 0)) 0 1 = 0 := by
    rw [clamp, max_eq_right hq, min_eq_left (by norm_num)]
  rw [smoothstep]
  rw [ht]
  ring

/-- C4: for every pixel (row `i`, column `j`) of a positive
`width x height` grid, `renderPixel` computes the device coordinates
`x = (j/width)*2 - 1` and `y = 1 - (i/height)*2`; when the minimum
barycentric weight `minB` of `(x, y)` is at least `-0.02` the output
equals `interpolatedColor * alpha + background * (1 - alpha)` with
`interpolatedColor = u*c0 + v*c1 + w*c2` and
`alpha = smoothstep(0, 1/(max(width, height)*0.5), minB)`, and otherwise
the output equals the background `(1,1,1)`. -/
theorem renderPixel_formula (m : Model) (w h i j : ℕ)
    (hw : 0 < w) (hh : 0 < h) (hi : i < h) (hj : j < w) :
    renderPixel m (w : ℚ) (h : ℚ) i j =
      (let x : ℚ := ((j : ℚ) / (w : ℚ)) * 2 - 1
       let y : ℚ := 1 - ((i : ℚ) / (h : ℚ)) * 2
       let b := barycentric ⟨x, y⟩ m.v0 m.v1 m.v2
       let minB := min (min b.x b.y) b.z
       if -(1/50) ≤ minB then
         let alpha := smoothstep 0 (1 / (max (w : ℚ) (h : ℚ) * (1/2))) minB
         alpha • (b.x • m.cols.c0 + b.y • m.cols.c1 + b.z • m.cols.c2) +
           (1 - alpha) • bgColor
       else bgColor) := rfl

/-- Witness for C4 at the concrete grid 2x2, pixel (0,0), with the
reference model. -/
theorem renderPixel_formula_witness :
    renderPixel refModel ((2 : ℕ) : ℚ) ((2 : ℕ) : ℚ) 0 0 =
      (let x : ℚ := (((0 : ℕ) : ℚ) / ((2 : ℕ) : ℚ)) * 2 - 1
       let y : ℚ := 1 - (((0 : ℕ) : ℚ) / ((2 : ℕ) : ℚ)) * 2
       let b := barycentric ⟨x, y⟩ refModel.v0 refModel.v1 refModel.v2
       let minB := min (min b.x b.y) b.z
       if -(1/50) ≤ minB then
         let alpha := smoothstep 0 (1 / (max ((2 : ℕ) : ℚ) ((2 : ℕ) : ℚ) * (1/2))) minB
         alpha • (b.x • refModel.cols.c0 + b.y • refModel.cols.c1 +
           b.z • refModel.cols.c2) + (1 - alpha) • bgColor
       else bgColor) :=
  renderPixel_formula refModel 2 2 0 0 (by decide) (by decide) (by decide) (by decide)

/-- C8: the barycentric weights returned by
`TriangleRenderer.barycentric` sum to exactly 1 for every point and every
triangle with nonzero denominator (exact over the rationals, since
`u = 1 - v - w` by construction). -/
theorem bary_sum_one (p v0 v1 v2 : Vec2) (hden : baryDenom v0 v1 v2 ≠ 0) :
    (barycentric p v0 v1 v2).x + (barycentric p v0 v1 v2).y +
      (barycentric p v0 v1 v2).z = 1 := by
  simp only [barycentric]
  ring

/-- Witness for C8 at the reference (non-degenerate) triangle and the
device point `(0, 0)`. -/
theorem bary_sum_one_witness :
    baryDenom ⟨0, 3/5⟩ ⟨-1/2, -3/10⟩ ⟨1/2, -3/10⟩ ≠ 0 ∧
    (barycentric ⟨0, 0⟩ ⟨0, 3/5⟩ ⟨-1/2, -3/10⟩ ⟨1/2, -3/10⟩).x +
      (barycentric ⟨0, 0⟩ ⟨0, 3/5⟩ ⟨-1/2, -3/10⟩ ⟨1/2, -3/10⟩).y +
      (barycentric ⟨0, 0⟩ ⟨0, 3/5⟩ ⟨-1/2, -3/10⟩ ⟨1/2, -3/10⟩).z = 1 :=
  ⟨by norm_num [baryDenom, Vec2.sub, Vec2.dot],
   bary_sum_one ⟨0, 0⟩ ⟨0, 3/5⟩ ⟨-1/2, -3/10⟩ ⟨1/2, -3/10⟩
     (by norm_num [baryDenom, Vec2.sub, Vec2.dot])⟩

/-- C9: for every pixel whose minimum barycentric weight is below the
`-0.02` threshold, the short-circuiting kernel writes exactly the
background color, and the unconditional blend formula produces the same
value there, because the smoothstep anti-aliasing factor is 0 for every
non-positive minimum weight. -/
theorem outside_equals_blend (m : Model) (w h : ℚ) (i j : ℕ)
    (hw : 0 < w) (hh : 0 < h)
    (hout : minBaryAt m w h i j < -(1/50)) :
    renderPixel m w h i j = bgColor ∧
    renderPixelBlendAlways m w h i j = bgColor := by
  have hscale : 0 < 1 / (max w h * (1/2)) := by
    have h1 : 0 < max w h := lt_of_lt_of_le hw (le_max_left w h)
    positivity
  have halpha : smoothstep 0 (1 / (max w h * (1/2))) (minBaryAt m w h i j) = 0 :=
    smoothstep_eq_zero_of_nonpos _ _ hscale (by linarith)
  constructor
  · rw [renderPixel_eq_ite, if_neg (not_le.mpr hout)]
  · show (smoothstep 0 (1 / (max w h * (1/2))) (minBaryAt m w h i j)) •
        (let x := ((j : ℚ) / w) * 2 - 1
         let y := 1 - ((i : ℚ) / h) * 2
         let bary := barycentric ⟨x, y⟩ m.v0 m.v1 m.v2
         bary.x • m.cols.c0 + bary.y • m.cols.c1 + bary.z • m.cols.c2) +
        (1 - smoothstep 0 (1 / (max w h * (1/2))) (minBaryAt m w h i j)) • bgColor
        = bgColor
    rw [halpha]
    simp [bgColor]

/-- Witness for C9 at the reference model on a 4x4 grid, pixel (0,0)
(device coordinates `(-1, 1)`, far outside the triangle). -/
theorem outside_equals_blend_witness :
    renderPixel refModel 4 4 0 0 = bgColor ∧
    renderPixelBlendAlways refModel 4 4 0 0 = bgColor :=
  outside_equals_blend refModel 4 4 0 0 (by norm_num) (by norm_num)
    (by norm_num [minBaryAt, barycentric, refModel, Vec2.sub, Vec2.dot, min_def])

/-- C10: the two color-rotation implementations are mutually inverse
permutations — `rotate_colors` (qt_triangle.py) maps `(c0, c1, c2)` to
`(c2, c0, c1)` while `swap_colors` (triangle.py) maps it to
`(c1, c2, c0)`, and their composition in either order is the identity. -/
theorem rotate_swap_inverses (c : Colors) :
    rotate_colors c = ⟨c.c2, c.c0, c.c1⟩ ∧
    swap_colors c = ⟨c.c1, c.c2, c.c0⟩ ∧
    rotate_colors (swap_colors c) = c ∧
    swap_colors (rotate_colors c) = c :=
  ⟨rfl, rfl, rfl, rfl⟩

end TaichiPlay
